import Mathlib

/-!
Verification development for the `richapi` exception-discovery compiler
(`richapi/exc_parser/compiler.py`, `richapi/exc_parser/openapi.py`,
`richapi/exc_parser/protocol.py`).

The Python source is shallowly embedded: pure helper functions become Lean
functions over `String` / `Int` / lists; the mutable class-level visited table
of `ExceptionFinder` becomes explicit state passing; Python's bounded call
stack (analysis aborts with a caught `RecursionError` at the interpreter's
recursion limit) becomes an explicit fuel parameter; code that can raise is
modelled with `Option`.  External collaborators (the `fastapi.status`
constant module, Python `eval`, user-defined exception constructors) are
modelled as explicit tables or function parameters, since the source treats
them as black boxes.
-/

/-! ## Python value and string primitives -/

/-- A Python constant as it appears in `ast.Constant` nodes and in attribute
values consulted by the extractor.  `nonec` is Python's `None`. -/
inductive PyConst where
  | intv (n : Int)
  | strv (s : String)
  | nonec
  deriving DecidableEq, Repr

/-- Python truthiness of a constant (`if value:`). -/
def pyTruthy : PyConst → Bool
  | .intv n => n ≠ 0
  | .strv s => s ≠ ""
  | .nonec => false

/-- Python `int(c)` for a constant.  The source applies Python `int()`; constants
that are not integers would raise there (aborting the pass), which no claim
exercises, so they are modelled as not producing an integer. -/
def toPyInt : PyConst → Option Int
  | .intv n => some n
  | _ => none

/-- Python `str.startswith`: prefix test on the character sequence. -/
def pyStartsWith (s p : String) : Bool :=
  p.data.isPrefixOf s.data

/-- Python `c in s` for a single character. -/
def pyContains (s : String) (c : Char) : Bool :=
  s.data.contains c

/-- Python `str.title()`: an alphabetic character is uppercased when the
previous character is not alphabetic, and lowercased otherwise. -/
def pyTitleGo : Bool → List Char → List Char
  | _, [] => []
  | prevAlpha, c :: rest =>
    if c.isAlpha then
      (if prevAlpha then c.toLower else c.toUpper) :: pyTitleGo true rest
    else
      c :: pyTitleGo false rest

/-- Python `str.title()` on a string. -/
def pyTitle (s : String) : String :=
  ⟨pyTitleGo false s.data⟩

/-- Python `str.split(sep)` for a single-character separator, on the
character list: empty fields are kept, exactly as Python's explicit-
separator split does. -/
def pySplit (sep : Char) : List Char → List (List Char)
  | [] => [[]]
  | x :: rest =>
    match pySplit sep rest with
    | [] => [[]]
    | g :: gs => if x = sep then [] :: g :: gs else (x :: g) :: gs

/-- Python `s.split(sep)` for a single-character separator. -/
def pySplitOn (s : String) (sep : Char) : List String :=
  (pySplit sep s.data).map (fun l => ⟨l⟩)

/-- Python `str.lower()` (ASCII, as used on HTTP method names). -/
def pyLower (s : String) : String :=
  ⟨s.data.map Char.toLower⟩

/-! ## `compiler.is_in_module` and `_should_be_visited` -/

/-- The dot adjustment in `is_in_module` (compiler.py lines 54-55): a module
name without a dot gets `"."` appended "to match the module.* pattern". -/
def pyAdjust (module : String) : String :=
  if pyContains module '.' then module else module ++ "."

/-- Embedding of `compiler.is_in_module` (compiler.py lines 46-60): `"__main__"` is always
in scope; otherwise the (dot-adjusted) module name must start with one of the
configured target prefixes. -/
def is_in_module (module : String) (target_modules : List String) : Bool :=
  if module = "__main__" then true
  else target_modules.any (fun target => pyStartsWith (pyAdjust module) target)

/-- A Python module as seen by the analyzer: its `__name__` and whether its
source file lies inside the stdlib path (`compiler.is_stdlib`, which consults
`sysconfig`; the filesystem answer is modelled as a field). -/
structure PyModule where
  name : String
  isStdlib : Bool
  deriving DecidableEq, Repr

/-- Embedding of `compiler._should_be_visited` (compiler.py lines 458-468): a module is
entered iff it is not stdlib and the scope predicate accepts its name. -/
def should_be_visited (m : PyModule) (pred : String → Bool) : Bool :=
  if m.isStdlib || (pred m.name = false) then false else true

/-! ## `compiler._resolve_full_attribute_path` -/

/-- The fragment of Python expression AST that
`_resolve_full_attribute_path` discriminates on: names, attribute accesses,
calls (only the callee is inspected; arguments are ignored by the source),
constants, and a constructor standing for every other node kind (the
source's silent `pass` branch). -/
inductive PyExpr where
  | name (id : String)
  | attribute (value : PyExpr) (attr : String)
  | call (func : PyExpr)
  | constant (c : PyConst)
  | otherExpr
  deriving DecidableEq, Repr

/-- The `recurse` closure of `_resolve_full_attribute_path` (compiler.py
lines 234-244): it appends the attribute before recursing into the base, so
the collected list runs outermost-to-innermost; unsupported nodes are
silently skipped. -/
def collectNames : PyExpr → List String
  | .name id => [id]
  | .attribute value attr => attr :: collectNames value
  | .call func => collectNames func
  | .constant _ => []
  | .otherExpr => []

/-- Embedding of `compiler._resolve_full_attribute_path` (compiler.py lines 223-252):
reverse the collected segments and join with dots; `None` when nothing was
collected. -/
def resolve_full_attribute_path (node : PyExpr) : Option String :=
  let names := collectNames node
  if names.isEmpty then none
  else some (String.intercalate "." names.reverse)

/-! ## `compiler._exctact_type` -/

/-- A Python runtime value as far as `_exctact_type` discriminates:
`isinstance(v, type)` and `issubclass(v, BaseException)`. -/
inductive PyVal where
  | excCls (name : String)
  | typeCls (name : String)
  | builtinFn (name : String)
  | otherVal
  deriving DecidableEq, Repr

/-- Python `isinstance(v, type)`. -/
def PyVal.isType : PyVal → Bool
  | .excCls _ => true
  | .typeCls _ => true
  | _ => false

/-- For values that are types, `issubclass(v, BaseException)`. -/
def PyVal.isExcSubclass : PyVal → Bool
  | .excCls _ => true
  | _ => false

/-- Lookup in an association list with string keys (first match), the
reading operation on a Python dict. -/
def lookupA {V : Type} : List (String × V) → String → Option V
  | [], _ => none
  | (k, v) :: rest, key => if k = key then some v else lookupA rest key

/-- Modelled collaborator: a fragment of the Python `builtins` module, as
consulted by `getattr(builtins, name, None)`.  It contains exception
classes, non-exception classes and plain builtin functions, as the real
module does. -/
def builtinsTable : List (String × PyVal) :=
  [("ValueError", .excCls "ValueError"),
   ("TypeError", .excCls "TypeError"),
   ("Exception", .excCls "Exception"),
   ("BaseException", .excCls "BaseException"),
   ("list", .typeCls "list"),
   ("dict", .typeCls "dict"),
   ("int", .typeCls "int"),
   ("str", .typeCls "str"),
   ("print", .builtinFn "print"),
   ("len", .builtinFn "len"),
   ("abs", .builtinFn "abs")]

/-- Modelled collaborator: Python `eval` restricted to a bare identifier
looked up in the supplied globals and then in builtins, which is exactly
what `eval(name, globals)` does for an identifier; `none` models eval
raising. -/
def pyEvalName (name : String) (globals : List (String × PyVal)) : Option PyVal :=
  match lookupA globals name with
  | some v => some v
  | none => lookupA builtinsTable name

/-- Embedding of `compiler._exctact_type` (compiler.py lines 440-456): evaluate the name;
if evaluation raises, return `None` (the `except BaseException` branch); if
the result is a class deriving `BaseException`, return it; otherwise fall
back to `getattr(builtins, name, None)` — whatever that yields.  `evalFn` is
the evaluation collaborator. -/
def exctact_type (evalFn : String → List (String × PyVal) → Option PyVal)
    (var_tyep : String) (func_globals : List (String × PyVal)) : Option PyVal :=
  match evalFn var_tyep func_globals with
  | none => none
  | some v =>
    if v.isType && v.isExcSubclass then some v
    else lookupA builtinsTable var_tyep

/-! ## The raise-site extractor (`openapi._resolve_status_and_detail_from_exc_type`) -/

/-- The value of a keyword or positional argument as the extractor
discriminates it: `ast.Constant`, `ast.Attribute` (only the rightmost
attribute name is consulted), `ast.Name`, or anything else. -/
inductive AstValue where
  | constant (c : PyConst)
  | attributeV (attr : String)
  | nameV (id : String)
  | otherV
  deriving DecidableEq, Repr

/-- An `ast.keyword` node: `arg` is `None` for a `**kwargs` splat. -/
structure KeywordArg where
  arg : Option String
  value : AstValue
  deriving DecidableEq, Repr

/-- The raised expression, as consulted through
`getattr(ast_exc, "keywords", None)` and `getattr(ast_exc, "args", None)`:
either attribute may be absent (e.g. the raised expression is a bare name,
which has neither). -/
structure RaiseExc where
  keywords : Option (List KeywordArg)
  args : Option (List AstValue)
  deriving DecidableEq, Repr

/-- An `ast.Raise` node: `exc` is `None` for a bare `raise`. -/
structure RaiseNode where
  exc : Option RaiseExc
  deriving DecidableEq, Repr

/-- The attributes of a constructed exception instance that the extractor
reads back: `status_code` (present iff `hasattr`, with its `int()` value)
and `detail` (present iff `hasattr`; the value may be Python `None`,
modelled as `PyConst.nonec`). -/
structure PyObj where
  status_code : Option Int
  detail : Option PyConst
  deriving DecidableEq, Repr

/-- The JSON documents the merger manipulates.  `modelSchema name lit` is
the `model_json_schema()` of the pydantic model `create_model(name,
detail=(T, ...))` built by `_generic_json_schema_builder`, where `T` is
`Literal[lit]` when a concrete detail was extracted and `str` otherwise;
`raw` stands for any other JSON blob found in the base document. -/
inductive Json where
  | modelSchema (name : String) (detailLit : Option PyConst)
  | raw (tag : String)
  deriving DecidableEq, Repr

/-- Embedding of `protocol.HTTPExceptionSchema` (protocol.py lines 10-18). -/
structure HTTPExceptionSchema where
  response_schema_json : Json
  schema_name : String
  schema_desc : String
  status_code : Int
  deriving DecidableEq, Repr

/-- An exception class as the extractor and merger consult it:
`clsStatusCode` / `clsDetail` model `hasattr(cls, "status_code")` /
`hasattr(cls, "detail")` together with the attribute values; `construct`
models calling the user-defined constructor `cls(*args, **kwargs)` (`none`
is a raised exception); `getJsonSchema` models the structural detection
`hasattr(exc, "get_json_schema")` together with that method's result;
`isStarletteSub` models `issubclass(cls, StarletteHTTPException)`;
`clsName` is `cls.__name__`. -/
structure ExcType where
  clsName : String
  clsStatusCode : Option Int
  clsDetail : Option PyConst
  construct : List PyConst → List (Option String × PyConst) → Option PyObj
  getJsonSchema : Option HTTPExceptionSchema
  isStarletteSub : Bool

/-- Modelled collaborator: the constants of the `fastapi.status` module
consulted by `getattr(fastapi.status, name, None)` (a representative
subset; the real module holds `HTTP_100`..`HTTP_511` plus the websocket
codes `WS_1000`..`WS_1015`). -/
def fastapiStatusTable : List (String × Int) :=
  [("HTTP_100_CONTINUE", 100),
   ("HTTP_200_OK", 200),
   ("HTTP_402_PAYMENT_REQUIRED", 402),
   ("HTTP_404_NOT_FOUND", 404),
   ("HTTP_409_CONFLICT", 409),
   ("HTTP_422_UNPROCESSABLE_ENTITY", 422),
   ("HTTP_500_INTERNAL_SERVER_ERROR", 500),
   ("HTTP_511_NETWORK_AUTHENTICATION_REQUIRED", 511),
   ("WS_1000_NORMAL_CLOSURE", 1000),
   ("WS_1015_TLS_HANDSHAKE", 1015)]

/-- Python `getattr(fastapi.status, name, None)`. -/
def fastapiStatus (name : String) : Option Int :=
  lookupA fastapiStatusTable name

/-- State threaded through the keyword loop of
`_resolve_status_and_detail_from_exc_type` (openapi.py lines 126-160):
`found_status_code`, `found_detail` and the dict of other constant-valued
keywords. -/
structure KwState where
  foundStatus : Option Int
  foundDetail : Option PyConst
  kwargs : List (Option String × PyConst)
  deriving Repr

/-- Python dict assignment `d[k] = v` on an association list: replace the
first binding in place, or append a new one. -/
def updateKw (l : List (Option String × PyConst)) (k : Option String) (v : PyConst) :
    List (Option String × PyConst) :=
  match l with
  | [] => [(k, v)]
  | (k0, v0) :: rest => if k0 = k then (k, v) :: rest else (k0, v0) :: updateKw rest k v

/-- One iteration of the keyword loop (openapi.py lines 132-160).
`ast.keyword` nodes always carry an `arg` attribute, so the
`hasattr(kwarg, "arg")` guard never skips; a `status_code=` value that is
neither constant, attribute nor name leaves `found_status_code` unchanged. -/
def procKw (st : KwState) (k : KeywordArg) : KwState :=
  match k.arg, k.value with
  | some "status_code", .constant c => { st with foundStatus := toPyInt c }
  | some "status_code", .attributeV a => { st with foundStatus := fastapiStatus a }
  | some "status_code", .nameV i => { st with foundStatus := fastapiStatus i }
  | some "status_code", .otherV => st
  | some "detail", .constant c => { st with foundDetail := some c }
  | some "detail", _ => st
  | a, .constant c => { st with kwargs := updateKw st.kwargs a c }
  | _, _ => st

/-- Python `isinstance(arg, int)` on the collected constant values (openapi.py
line 173). -/
def isIntConst : PyConst → Bool
  | .intv _ => true
  | _ => false

/-- Python truthiness of `found_status_code` (`if found_status_code:`). -/
def statusTruthy : Option Int → Bool
  | some n => n ≠ 0
  | none => false

/-- Python truthiness of `found_detail`. -/
def detailTruthy : Option PyConst → Bool
  | some c => pyTruthy c
  | none => false

/-- The argument-inspection phase of
`_resolve_status_and_detail_from_exc_type` (openapi.py lines 122-204),
reached when the class-attribute pair is absent: run the keyword loop; if
both `found_detail` and `found_status_code` are truthy, return them; else
inspect the positional arguments — a mix of constant and non-constant
positionals short-circuits (keyword status, else first integer positional,
else give up); otherwise construct `exc_type(*args, **kwargs)` (the
`status_code=` / `detail=` keywords are NOT in `kwargs`) and read the
instance attributes back, falling back to the keyword status. -/
def resolveFromArgs (E : ExcType) (exc : RaiseExc) : Option (Int × PyConst) :=
  let st := (exc.keywords.getD []).foldl procKw ⟨none, none, []⟩
  match st.foundStatus, st.foundDetail with
  | some sc, some d =>
    if sc ≠ 0 && pyTruthy d then some (sc, d)
    else resolveFromArgsPos E exc st
  | _, _ => resolveFromArgsPos E exc st
where
  /-- Positional collection and construction (openapi.py lines 165-204). -/
  resolveFromArgsPos (E : ExcType) (exc : RaiseExc) (st : KwState) :
      Option (Int × PyConst) :=
    match exc.args with
    | some l =>
      let argvals := l.filterMap (fun a => match a with | .constant c => some c | _ => none)
      if argvals ≠ [] && argvals.length ≠ l.length then
        match st.foundStatus with
        | some sc =>
          if sc ≠ 0 then some (sc, .nonec)
          else mixedFallback argvals
        | none => mixedFallback argvals
      else construct argvals st
    | none => construct [] st
  /-- Source `elif status_arg: return status_arg[0], None` / `return None`. -/
  mixedFallback (argvals : List PyConst) : Option (Int × PyConst) :=
    match (argvals.filter isIntConst).head? with
    | some (.intv n) => some (n, .nonec)
    | _ => none
  /-- Source `exc = exc_type(*args, **kwargs)` and the attribute read-back. -/
  construct (args : List PyConst) (st : KwState) : Option (Int × PyConst) :=
    match E.construct args st.kwargs with
    | some obj =>
      match obj.status_code, obj.detail with
      | some sc, some d => some (sc, d)
      | _, _ => kwFallback st
    | none => kwFallback st
  /-- The `if found_status_code: return found_status_code, None` fallback. -/
  kwFallback (st : KwState) : Option (Int × PyConst) :=
    match st.foundStatus with
    | some sc => if sc ≠ 0 then some (sc, .nonec) else none
    | none => none

/-- Embedding of `openapi._resolve_status_and_detail_from_exc_type` (openapi.py lines
115-204).  If the class has both a `status_code` and a `detail` attribute
(`hasattr` only — values are not inspected), their values are returned
directly; a bare `raise` yields nothing; otherwise the arguments are
inspected. -/
def resolve_status_and_detail (E : ExcType) (node : RaiseNode) : Option (Int × PyConst) :=
  match E.clsStatusCode, E.clsDetail with
  | some sc, some d => some (sc, d)
  | _, _ =>
    match node.exc with
    | none => none
    | some exc => resolveFromArgs E exc

/-! ## `protocol.try_to_camel_case` and `protocol._generic_json_schema_builder` -/

/-- Source `components[0] + "".join(x.title() for x in components[1:])`. -/
def joinTitled (components : List String) : String :=
  match components with
  | [] => ""
  | c :: rest => c ++ String.join (rest.map pyTitle)

/-- Embedding of `protocol.try_to_camel_case` (protocol.py lines 63-77).  Each block
tests membership on the string built so far but re-splits the ORIGINAL
string, exactly as the source does. -/
def try_to_camel_case (string : String) : String :=
  let final1 := string
  let final2 :=
    if pyContains final1 ' ' then joinTitled (pySplitOn string ' ') else final1
  let final3 :=
    if pyContains final2 '_' then joinTitled (pySplitOn string '_') else final2
  if pyContains final3 '-' then joinTitled (pySplitOn string '-') else final3

/-- Embedding of `protocol._generic_json_schema_builder` (protocol.py lines 80-110).
`detail` is the Python `detail` argument (`PyConst.nonec` being `None`);
class attributes fill in missing values only when truthy; no status code
means no schema.  A truthy non-string detail would make the source raise
inside `try_to_camel_case` / pydantic validation, aborting the pass; that
unreachable-for-the-claims path is modelled as `none`. -/
def generic_json_schema_builder (E : ExcType) (detail0 : PyConst)
    (status0 : Option Int) : Option HTTPExceptionSchema :=
  let name := E.clsName ++ "ErrorSchema"
  let detail :=
    match E.clsDetail with
    | some d => if pyTruthy d ∧ detail0 = PyConst.nonec then d else detail0
    | none => detail0
  let status :=
    match status0 with
    | some s => some s
    | none =>
      match E.clsStatusCode with
      | some sc => if sc ≠ 0 then some sc else none
      | none => none
  match status with
  | none => none
  | some sc =>
    match detail with
    | .nonec =>
      some ⟨.modelSchema name none, name, "No description provided", sc⟩
    | .strv s =>
      let name2 := try_to_camel_case s ++ "Schema"
      some ⟨.modelSchema name2 (some (.strv s)), name2,
            if s ≠ "" then s else "No description provided", sc⟩
    | .intv _ => none

/-- Embedding of `openapi._extract_json_schema` (openapi.py lines 207-216): resolve
status and detail for the raise site, then build the generic schema. -/
def extract_json_schema (ast_node : RaiseNode) (E : ExcType) :
    Option HTTPExceptionSchema :=
  match resolve_status_and_detail E ast_node with
  | none => none
  | some (status_code, detail) =>
    generic_json_schema_builder E detail (some status_code)

/-- The schema choice at the top of the merger loop (openapi.py lines
226-231): use `get_json_schema` when the class exposes it (structural
detection), else extract from the raise site. -/
def schemaOf (E : ExcType) (node : RaiseNode) : Option HTTPExceptionSchema :=
  match E.getJsonSchema with
  | some s => some s
  | none => extract_json_schema node E

/-! ## The recursive exception finder (`compiler.find_explicit_exceptions`,
`_find_explicit_expection_recursively`, `ExceptionFinder`) -/

/-- The statements of a function body that drive the finder's recursion, in
document order: a raise site whose expression has already been run through
the name-resolution machinery (`_extract_node_name` / `_exctact_type`,
yielding the class or `none`), or a call whose callee resolved to the
user-defined function with the given identity
(`_resolve_functions_from_call_node`; unresolved callees contribute nothing
and are omitted). -/
inductive Stmt where
  | raiseStmt (exc : Option ExcType) (node : RaiseNode)
  | callStmt (callee : Nat)

/-- A user-defined function: its defining module and its body in document
order.  Function identity (the dict key of `ExceptionFinder.visited`) is a
`Nat`. -/
structure FuncDef where
  module : PyModule
  body : List Stmt

/-- A collected raise site: the pair `(exception_class | None, raise_node)`
appended by `visit_Raise`, tagged with the identity of the function whose
body contains it (`owner`, plus the position `idx` standing for the AST
node's identity). -/
structure RaiseSite where
  exc : Option ExcType
  node : RaiseNode
  owner : Nat
  idx : Nat

/-- The `ExceptionFinder.visited` class attribute: a dict from function
identity to the list of collected raise sites. -/
abbrev VisitedTable := List (Nat × List RaiseSite)

/-- Dict lookup in the visited table. -/
def lookupT : VisitedTable → Nat → Option (List RaiseSite)
  | [], _ => none
  | (k, v) :: rest, key => if k = key then some v else lookupT rest key

/-- Dict insertion into the visited table (line 205:
`ExceptionFinder.visited[func_obj] = finder.exceptions`). -/
def insertT (t : VisitedTable) (k : Nat) (v : List RaiseSite) : VisitedTable :=
  (k, v) :: t

/-- One pass of `ExceptionFinder.visit` over a function body (the
`visit_Raise` and `visit_Call` handlers, compiler.py lines 564-643):
raise sites are appended in document order; a call first checks the
callee's module scope (lines 603-605) and then recurses through
`_find_explicit_expection_recursively`, given here as `findF` (the
recursion one fuel level down).  Returns the updated visited table, the
collected sites, and the log of function identities whose AST was
(re-)analyzed. -/
def visitBody (findF : VisitedTable → Nat → VisitedTable × List RaiseSite × List Nat)
    (prog : Nat → FuncDef) (pred : String → Bool) (owner : Nat) :
    VisitedTable → List Stmt → Nat → VisitedTable × List RaiseSite × List Nat
  | table, [], _ => (table, [], [])
  | table, .raiseStmt e node :: rest, i =>
    let r := visitBody findF prog pred owner table rest (i + 1)
    (r.1, ⟨e, node, owner, i⟩ :: r.2.1, r.2.2)
  | table, .callStmt g :: rest, i =>
    if should_be_visited (prog g).module pred then
      let c := findF table g
      let r := visitBody findF prog pred owner c.1 rest (i + 1)
      (r.1, c.2.1 ++ r.2.1, c.2.2 ++ r.2.2)
    else
      visitBody findF prog pred owner table rest (i + 1)

/-- Embedding of `compiler._find_explicit_expection_recursively` (compiler.py lines
179-206): a cached function returns its memoized sites; an out-of-scope
module returns nothing; otherwise the body is visited and the result is
memoized AFTERWARDS (line 205) — during the visit the function itself is
not yet in the table.  `fuel` models the Python recursion limit: at zero
the `finder.visit` call raises `RecursionError`, which the
`except Exception` on lines 200-203 swallows, memoizing the partial (empty)
result.  The third component logs each function whose AST analysis was
started. -/
def findRec (prog : Nat → FuncDef) (pred : String → Bool) :
    Nat → VisitedTable → Nat → VisitedTable × List RaiseSite × List Nat
  | 0, table, f =>
    (match lookupT table f with
     | some cached => (table, cached, [])
     | none =>
       if should_be_visited (prog f).module pred then
         (insertT table f [], [], [f])
       else (table, [], []))
  | fuel + 1, table, f =>
    (match lookupT table f with
     | some cached => (table, cached, [])
     | none =>
       if should_be_visited (prog f).module pred then
         let r := visitBody (findRec prog pred fuel) prog pred f table (prog f).body 0
         (insertT r.1 f r.2.1, r.2.1, f :: r.2.2)
       else (table, [], []))

/-- Embedding of `compiler.find_explicit_exceptions` with an explicit scope predicate
(compiler.py lines 79-109): the entry point checks the function's own
module first (lines 101-103) and returns the empty list for out-of-scope
functions before any analysis. -/
def findExplicitWithPred (prog : Nat → FuncDef) (pred : String → Bool)
    (fuel : Nat) (table : VisitedTable) (f : Nat) :
    VisitedTable × List RaiseSite × List Nat :=
  if should_be_visited (prog f).module pred then findRec prog pred fuel table f
  else (table, [], [])

/-- Embedding of `compiler.find_explicit_exceptions` with the default predicate built
from the target-module list (compiler.py lines 94-99). -/
def find_explicit_exceptions (prog : Nat → FuncDef) (target_modules : List String)
    (fuel : Nat) (table : VisitedTable) (f : Nat) :
    VisitedTable × List RaiseSite × List Nat :=
  findExplicitWithPred prog (fun m => is_in_module m target_modules) fuel table f

/-! ## The merger (`openapi._fill_openapi_with_excpetions`) and the compiler
entry point (`openapi.compile_openapi_from_fastapi`) -/

/-- The `schema` value under `responses[status].content["application/json"]`:
a `$ref` to a component, an `anyOf` union, or any other JSON found in the
base document. -/
inductive SchemaJ where
  | ref (name : String)
  | anyOfS (l : List SchemaJ)
  | otherS (j : Json)

/-- One response entry: its description and the schema under
`content["application/json"]`.  (The intermediate `content` /
`application/json` dict levels always exist together with the schema in
both the entries the merger writes and those it rewrites, so they are
collapsed into this structure.) -/
structure RespEntry where
  description : String
  schema : SchemaJ

/-- The `responses` dict of one operation, keyed by stringified status. -/
abbrev Responses := List (String × RespEntry)

/-- The dict of one path: lowercased HTTP method → responses. -/
abbrev MethodMap := List (String × Responses)

/-- Python dict assignment `d[k] = v`: replace the first binding in place,
or append a new binding at the end (insertion order). -/
def updateA {V : Type} : List (String × V) → String → V → List (String × V)
  | [], k, v => [(k, v)]
  | (k0, v0) :: rest, k, v =>
    if k0 = k then (k, v) :: rest else (k0, v0) :: updateA rest k v

/-- The OpenAPI document as far as the merger touches it:
`components.schemas` and `paths[path][method].responses`. -/
structure Doc where
  components : List (String × Json)
  paths : List (String × MethodMap)

/-- The per-method response update (openapi.py lines 253-285): no existing
response under the status → insert a single `$ref`; an existing non-union
response → lift to `anyOf [old, new-ref]`; an existing union → append the
new `$ref` in place. -/
def updMethodResponses (schema : HTTPExceptionSchema) (resps : Responses) : Responses :=
  let key := toString schema.status_code
  match lookupA resps key with
  | none =>
    updateA resps key ⟨schema.schema_desc, .ref schema.schema_name⟩
  | some entry =>
    match entry.schema with
    | .anyOfS l =>
      updateA resps key { entry with schema := .anyOfS (l ++ [.ref schema.schema_name]) }
    | s =>
      updateA resps key { entry with schema := .anyOfS [s, .ref schema.schema_name] }

/-- Navigate `api_schema["paths"][path][method]` and rewrite the responses;
a missing path or method key raises `KeyError` in the source (modelled as
`none`, aborting the pass). -/
def fillMethod (doc : Doc) (path m : String) (schema : HTTPExceptionSchema) :
    Option Doc :=
  match lookupA doc.paths path with
  | none => none
  | some mm =>
    match lookupA mm m with
    | none => none
    | some resps =>
      some { doc with
             paths := updateA doc.paths path (updateA mm m (updMethodResponses schema resps)) }

/-- Iterate the lowercased methods of the route (openapi.py lines 251-253). -/
def fillMethods (doc : Doc) (path : String) (schema : HTTPExceptionSchema) :
    List String → Option Doc
  | [] => some doc
  | m :: rest =>
    match fillMethod doc path m schema with
    | none => none
    | some doc2 => fillMethods doc2 path schema rest

/-- Component registration (openapi.py lines 239-248): the registry is
updated only when the schema name is not yet present. -/
def registerComponent (doc : Doc) (schema : HTTPExceptionSchema) : Doc :=
  match lookupA doc.components schema.schema_name with
  | some _ => doc
  | none =>
    { doc with components := doc.components ++ [(schema.schema_name, schema.response_schema_json)] }

/-- A route as the compiler consumes it: `isinstance(route, APIRoute)`,
`include_in_schema`, path, methods, and the flat dependency list produced
by `build_dependency_tree` (function identities). -/
structure Route where
  isAPIRoute : Bool
  includeInSchema : Bool
  path : String
  methods : List String
  deps : List Nat

/-- The per-exception loop of `openapi._fill_openapi_with_excpetions`
(openapi.py lines 219-285), threading the document and the
`added_schema_names` set: a failed schema or an already-added name is
skipped; otherwise the component is registered and every method of the
route is updated. -/
def fillExcs (route : Route) : Doc → List String → List (ExcType × RaiseNode) → Option Doc
  | doc, _, [] => some doc
  | doc, added, (E, node) :: rest =>
    match schemaOf E node with
    | none => fillExcs route doc added rest
    | some s =>
      if s.schema_name ∈ added then fillExcs route doc added rest
      else
        let doc1 := registerComponent doc s
        match fillMethods doc1 route.path s (route.methods.map pyLower) with
        | none => none
        | some doc2 => fillExcs route doc2 (s.schema_name :: added) rest

/-- Embedding of `openapi._fill_openapi_with_excpetions` (openapi.py lines 219-285). -/
def fill_openapi_with_excpetions (api_schema : Doc) (route : Route)
    (exceptions : List (ExcType × RaiseNode)) : Option Doc :=
  fillExcs route api_schema [] exceptions

/-- Embedding of `openapi._extract_starlette_exceptions` (openapi.py lines 308-325):
analyze every dependency of the route in order (threading the shared
visited table) and keep the sites whose class resolved and derives
`StarletteHTTPException`. -/
def extract_starlette_exceptions (prog : Nat → FuncDef) (targets : List String)
    (fuel : Nat) (table : VisitedTable) (route : Route) :
    VisitedTable × List (ExcType × RaiseNode) :=
  let all := route.deps.foldl
    (fun acc dep =>
      let r := find_explicit_exceptions prog targets fuel acc.1 dep
      (r.1, acc.2 ++ r.2.1))
    (table, [])
  (all.1,
   all.2.filterMap (fun site =>
     match site.exc with
     | some E => if E.isStarletteSub then some (E, site.node) else none
     | none => none))

/-- A FastAPI application as far as the compiler consumes it: the route
list and the base document produced by `open_api_getter(app)` (the external
base-generation collaborator, a pure function of the application here). -/
structure App where
  routes : List Route
  baseDoc : Doc

/-- The `Union[list[str], str]` scope argument of
`compile_openapi_from_fastapi`. -/
inductive ScopeArg where
  | strArg (s : String)
  | listArg (l : List String)

/-- Line 82: `[target_module] if isinstance(target_module, str) else target_module`. -/
def scopeList : ScopeArg → List String
  | .strArg s => [s]
  | .listArg l => l

/-- The caller's variable after one call to `compile_openapi_from_fastapi`:
a string argument is untouched (a fresh list was built), while a caller-
owned list has been mutated in place by `target_module.append("fastapi")`
(line 83). -/
def afterCall : ScopeArg → ScopeArg
  | .strArg s => .strArg s
  | .listArg l => .listArg (l ++ ["fastapi"])

/-- The per-route loop body of `compile_openapi_from_fastapi` (openapi.py
lines 86-93): non-`APIRoute` and excluded routes are skipped; otherwise
extract and merge, threading the visited table; a raised `KeyError` inside
the merger (modelled `none`) aborts the loop with the table left as is. -/
def compileStep (prog : Nat → FuncDef) (targets : List String) (fuel : Nat)
    (st : Option Doc × VisitedTable) (route : Route) : Option Doc × VisitedTable :=
  match st.1 with
  | none => st
  | some doc =>
    if route.isAPIRoute && route.includeInSchema then
      let r := extract_starlette_exceptions prog targets fuel st.2 route
      match fill_openapi_with_excpetions doc route r.2 with
      | some doc2 => (some doc2, r.1)
      | none => (none, r.1)
    else st

/-- Embedding of `openapi.compile_openapi_from_fastapi` (openapi.py lines 72-97):
normalize the scope argument, append `"fastapi"`, run every route through
extraction and merging, and clear the visited table on successful
completion (`ExceptionFinder.clear_cache()`, line 95, which is NOT reached
when the loop raises).  Returns the document (`none` for an aborted pass),
the final visited table, and the scope list actually used. -/
def compile_openapi_from_fastapi (prog : Nat → FuncDef) (fuel : Nat) (app : App)
    (target_module : ScopeArg) (table : VisitedTable) :
    Option Doc × VisitedTable × List String :=
  let targets := scopeList target_module ++ ["fastapi"]
  let r := app.routes.foldl (compileStep prog targets fuel) (some app.baseDoc, table)
  match r.1 with
  | some doc => (some doc, [], targets)
  | none => (none, r.2, targets)

/-! ## Helper lemmas -/

/-- A wrapper sequence applied around a base expression: the attribute and
call layers of a `a.b().c`-style chain, innermost first. -/
inductive ChainOp where
  | attrOp (s : String)
  | callOp
  deriving DecidableEq, Repr

/-- Apply the chain layers around a base expression, innermost first. -/
def applyOps : PyExpr → List ChainOp → PyExpr
  | e, [] => e
  | e, .attrOp s :: rest => applyOps (.attribute e s) rest
  | e, .callOp :: rest => applyOps (.call e) rest

/-- The attribute names of a chain, innermost first. -/
def opAttrs (ops : List ChainOp) : List String :=
  ops.filterMap (fun o => match o with | .attrOp s => some s | .callOp => none)

theorem collectNames_applyOps (ops : List ChainOp) :
    ∀ e : PyExpr, collectNames (applyOps e ops) = (opAttrs ops).reverse ++ collectNames e := by
  induction ops with
  | nil => intro e; simp [applyOps, opAttrs]
  | cons o rest ih =>
    intro e
    cases o with
    | attrOp s =>
      simp only [applyOps, ih, collectNames, opAttrs, List.filterMap_cons]
      simp [opAttrs]
    | callOp =>
      simp only [applyOps, ih, collectNames, opAttrs, List.filterMap_cons]

/-! ## Claim C4 -/

/-- C4 counterexample: for `(5).upper` — an attribute whose leftmost
producer is a constant, not a bare name — `_resolve_full_attribute_path`
returns `"upper"`, not `None` as the claim states: the unsupported base is
silently skipped. -/
theorem resolve_path_counterexample :
    resolve_full_attribute_path (.attribute (.constant (.intv 5)) "upper") = some "upper"
    ∧ resolve_full_attribute_path (.attribute (.constant (.intv 5)) "upper") ≠ none := by
  constructor
  · rfl
  · intro h; simp [resolve_full_attribute_path, collectNames] at h

/-- C4 amended: `_resolve_full_attribute_path` maps every chain of
attribute/call layers rooted at a bare name to the single left-to-right
dotted path, and for a chain rooted at a non-name producer it silently
drops the root, returning the remaining attribute segments (so it returns
`None` exactly when no segment was collected, not whenever the leftmost
producer is not a bare name). -/
theorem resolve_path_amended (x : String) (ops : List ChainOp) :
    resolve_full_attribute_path (applyOps (.name x) ops) =
      some (String.intercalate "." (x :: opAttrs ops))
    ∧ ∀ c : PyConst,
      resolve_full_attribute_path (applyOps (.constant c) ops) =
        if opAttrs ops = [] then none
        else some (String.intercalate "." (opAttrs ops)) := by
  constructor
  · simp [resolve_full_attribute_path, collectNames_applyOps, collectNames]
  · intro c
    simp only [resolve_full_attribute_path, collectNames_applyOps, collectNames,
      List.append_nil]
    rcases h : opAttrs ops with _ | ⟨a, rest⟩
    · simp
    · simp [h, List.isEmpty_iff]

/-! ## Claim C5 -/

/-- C5 counterexample: `_exctact_type("print", {})` — `eval` finds the
builtin function `print`, which is not a class, so the builtins fallback
`getattr(builtins, "print", None)` returns the `print` function itself:
the result is neither `None` nor a `BaseException` subclass. -/
theorem exctact_type_counterexample :
    exctact_type pyEvalName "print" [] = some (PyVal.builtinFn "print")
    ∧ (PyVal.builtinFn "print").isType = false
    ∧ (PyVal.builtinFn "print").isExcSubclass = false := by
  refine ⟨?_, rfl, rfl⟩
  rfl

/-- C5 amended: `_exctact_type` returns `None`, or the evaluated value when
that value is a class deriving `BaseException`, or else whatever
`getattr(builtins, name, None)` yields — which may be any builtin, not
necessarily a class; and a raising evaluation (modelled by an evaluator
returning nothing) always yields `None`, never a propagated error. -/
theorem exctact_type_amended (evalFn : String → List (String × PyVal) → Option PyVal)
    (name : String) (globals : List (String × PyVal)) :
    (exctact_type evalFn name globals = none
      ∨ (∃ v, exctact_type evalFn name globals = some v
          ∧ v.isType = true ∧ v.isExcSubclass = true)
      ∨ exctact_type evalFn name globals = lookupA builtinsTable name)
    ∧ (∀ g, exctact_type (fun _ _ => none) name g = none) := by
  constructor
  · unfold exctact_type
    cases h : evalFn name globals with
    | none => exact Or.inl rfl
    | some v =>
      by_cases hv : (v.isType && v.isExcSubclass) = true
      · refine Or.inr (Or.inl ⟨v, ?_, ?_, ?_⟩)
        · simp [hv]
        · exact (Bool.and_eq_true _ _ |>.mp hv).1
        · exact (Bool.and_eq_true _ _ |>.mp hv).2
      · refine Or.inr (Or.inr ?_)
        simp [hv]
  · intro g
    rfl

/-! ## Claim C6 -/

/-- An exception class declaring `status_code = 500` and `detail = None`:
both attributes are present (`hasattr` is true) but the `detail` value is
empty. -/
def excEmptyDetail : ExcType :=
  { clsName := "EmptyDetailError"
    clsStatusCode := some 500
    clsDetail := some .nonec
    construct := fun _ _ => none
    getJsonSchema := none
    isStarletteSub := true }

/-- Node for `raise EmptyDetailError(status_code=402, detail="pay up")`. -/
def nodeKw402 : RaiseNode :=
  ⟨some ⟨some [⟨some "status_code", .constant (.intv 402)⟩,
               ⟨some "detail", .constant (.strv "pay up")⟩], some []⟩⟩

/-- C6 counterexample: the class declares `status_code` and `detail`
attributes but the `detail` value is empty (`None`); the claim says
argument inspection is performed instead, which would yield
`(402, "pay up")`, yet the extractor takes the class path (the source
checks only `hasattr`, never emptiness) and returns `(500, None)`. -/
theorem class_attr_counterexample :
    resolve_status_and_detail excEmptyDetail nodeKw402 = some (500, .nonec)
    ∧ resolve_status_and_detail excEmptyDetail nodeKw402 ≠ some (402, .strv "pay up") := by
  constructor
  · rfl
  · intro h
    rw [show resolve_status_and_detail excEmptyDetail nodeKw402 = some (500, .nonec) from rfl] at h
    simp at h

/-- C6 amended: when the exception class declares both `status_code` and
`detail` as attributes (`hasattr` — regardless of whether the values are
empty), the extractor emits the class values directly and never inspects
the raise node's keyword or positional arguments (the result is the same
for every raise node); argument inspection happens only when at least one
of the two attributes is absent. -/
theorem class_attr_precedence_amended (E : ExcType) (sc : Int) (d : PyConst)
    (h1 : E.clsStatusCode = some sc) (h2 : E.clsDetail = some d) :
    ∀ node : RaiseNode, resolve_status_and_detail E node = some (sc, d) := by
  intro node
  unfold resolve_status_and_detail
  rw [h1, h2]

/-- Witness for C6: a class declaring `status_code = 409` and
`detail = "conflict"` resolves to `(409, "conflict")` on a bare raise node
with no arguments at all. -/
theorem class_attr_precedence_witness :
    resolve_status_and_detail
      { clsName := "ConflictError", clsStatusCode := some 409,
        clsDetail := some (.strv "conflict"), construct := fun _ _ => none,
        getJsonSchema := none, isStarletteSub := true }
      ⟨none⟩ = some (409, .strv "conflict") :=
  class_attr_precedence_amended _ 409 (.strv "conflict") rfl rfl ⟨none⟩

/-! ## Claim C3 -/

/-- Helper: when the class-attribute pair is absent, the extractor proceeds
to argument inspection. -/
theorem resolve_no_cls_pair (E : ExcType) (node : RaiseNode)
    (hcls : E.clsStatusCode = none ∨ E.clsDetail = none) :
    resolve_status_and_detail E node =
      (match node.exc with
       | none => none
       | some exc => resolveFromArgs E exc) := by
  unfold resolve_status_and_detail
  rcases hcls with h | h
  · rw [h]
  · rw [h]; cases E.clsStatusCode <;> rfl

/-- Helper: a keyword list carrying a truthy `status_code=` integer and a
truthy `detail=` string makes argument inspection return that pair before
any positional argument is examined. -/
theorem resolveFromArgs_kw_pair (E : ExcType) (n : Int) (s : String)
    (args : Option (List AstValue)) (hn : n ≠ 0) (hs : s ≠ "") :
    resolveFromArgs E
      ⟨some [⟨some "status_code", .constant (.intv n)⟩,
             ⟨some "detail", .constant (.strv s)⟩], args⟩ = some (n, .strv s) := by
  simp [resolveFromArgs, procKw, toPyInt, pyTruthy, hn, hs]

/-- An exception class with no class-level `status_code`/`detail`
attributes whose constructor succeeds with default values — e.g.
`def __init__(self, detail="default detail", status_code=500)`. -/
def excDefaultCtor : ExcType :=
  { clsName := "DefaultError"
    clsStatusCode := none
    clsDetail := none
    construct := fun _ _ => some ⟨some 500, some (.strv "default detail")⟩
    getJsonSchema := none
    isStarletteSub := true }

/-- Node for `raise DefaultError(status_code=402)`. -/
def nodeOnlyKwStatus : RaiseNode :=
  ⟨some ⟨some [⟨some "status_code", .constant (.intv 402)⟩], some []⟩⟩

/-- C3 counterexample: the raise site carries `status_code=402`, which
resolves to the integer 402, yet the extractor returns 500: with no detail
keyword the code falls through to construction, calls the constructor
WITHOUT the `status_code`/`detail` keywords (they are deliberately excluded
from the rebuilt kwargs), and the constructed object's default attributes
win over the explicit keyword. -/
theorem kw_precedence_counterexample :
    resolve_status_and_detail excDefaultCtor nodeOnlyKwStatus
      = some (500, .strv "default detail")
    ∧ Option.map Prod.fst
        (resolve_status_and_detail excDefaultCtor nodeOnlyKwStatus) ≠ some 402 := by
  constructor
  · rfl
  · intro h
    rw [show resolve_status_and_detail excDefaultCtor nodeOnlyKwStatus
          = some (500, .strv "default detail") from rfl] at h
    simp at h

/-- Helper: the full extractor on a raise node carrying both truthy
keywords, for a class without the attribute pair. -/
theorem resolve_kw_pair_helper (E : ExcType) (n : Int) (s : String)
    (args : Option (List AstValue))
    (hcls : E.clsStatusCode = none ∨ E.clsDetail = none)
    (hn : n ≠ 0) (hs : s ≠ "") :
    resolve_status_and_detail E
      ⟨some ⟨some [⟨some "status_code", .constant (.intv n)⟩,
                   ⟨some "detail", .constant (.strv s)⟩], args⟩⟩
      = some (n, .strv s) := by
  rw [resolve_no_cls_pair E _ hcls]
  exact resolveFromArgs_kw_pair E n s args hn hs

/-- C3 amended: the keyword `status_code=` overrides positional integers
only together with a truthy `detail=` keyword (or when construction cannot
supply both attributes): when the class lacks the attribute pair and the
raise site carries both a non-zero integer `status_code=` and a non-empty
string `detail=`, the extractor returns exactly that keyword pair for
EVERY list of positional arguments; but with `status_code=` alone, a
successful construction from all-literal positionals overrides the
keyword. -/
theorem kw_precedence_amended (E : ExcType) (n : Int) (s : String)
    (args : Option (List AstValue))
    (hcls : E.clsStatusCode = none ∨ E.clsDetail = none)
    (hn : n ≠ 0) (hs : s ≠ "") :
    resolve_status_and_detail E
      ⟨some ⟨some [⟨some "status_code", .constant (.intv n)⟩,
                   ⟨some "detail", .constant (.strv s)⟩], args⟩⟩
      = some (n, .strv s) :=
  resolve_kw_pair_helper E n s args hcls hn hs

/-- Witness for C3: with `raise DefaultError(123, status_code=404,
detail="x")` — a positional integer present — the keyword pair wins. -/
theorem kw_precedence_witness :
    resolve_status_and_detail excDefaultCtor
      ⟨some ⟨some [⟨some "status_code", .constant (.intv 404)⟩,
                   ⟨some "detail", .constant (.strv "x")⟩],
             some [.constant (.intv 123)]⟩⟩ = some (404, .strv "x") :=
  kw_precedence_amended excDefaultCtor 404 "x" (some [.constant (.intv 123)])
    (Or.inl rfl) (by decide) (by decide)

/-! ## Claim C9 -/

/-- Modelled from the spec: the `ResponseRecord` invariant
"`status_code` in 100..599", stated in the spec's words for comparison
with what the code produces. -/
def specStatusInRange (n : Int) : Bool :=
  (100 ≤ n && n ≤ 599)

/-- A plain `StarletteHTTPException`-like class: no class-level
`status_code`/`detail` attributes, constructor requires arguments (fails
on the empty call). -/
def excHTTPLike : ExcType :=
  { clsName := "HTTPException"
    clsStatusCode := none
    clsDetail := none
    construct := fun _ _ => none
    getJsonSchema := none
    isStarletteSub := true }

/-- Node for `raise HTTPException(status_code=999, detail="x")`. -/
def node999 : RaiseNode :=
  ⟨some ⟨some [⟨some "status_code", .constant (.intv 999)⟩,
               ⟨some "detail", .constant (.strv "x")⟩], some []⟩⟩

/-- C9 counterexample: the raise site `HTTPException(status_code=999,
detail="x")` produces a response record with status code 999, outside the
claimed 100..599 range — no range check exists anywhere between the
extractor and the merger. -/
theorem status_range_counterexample :
    Option.map HTTPExceptionSchema.status_code
      (extract_json_schema node999 excHTTPLike) = some 999
    ∧ specStatusInRange 999 = false := by
  exact ⟨rfl, rfl⟩

/-- C9 amended: the `status_code` of a produced response record is exactly
the integer the extraction yields; a literal keyword integer is propagated
into the schema without any range validation, so the 100..599 invariant is
not enforced (status codes taken from the modelled `fastapi.status`
constants do lie in their published ranges, but literals are unchecked). -/
theorem status_propagated_amended (E : ExcType) (n : Int) (s : String)
    (hcls : E.clsStatusCode = none ∨ E.clsDetail = none)
    (hn : n ≠ 0) (hs : s ≠ "") :
    Option.map HTTPExceptionSchema.status_code
      (extract_json_schema
        ⟨some ⟨some [⟨some "status_code", .constant (.intv n)⟩,
                     ⟨some "detail", .constant (.strv s)⟩], some []⟩⟩ E) = some n := by
  unfold extract_json_schema
  rw [resolve_kw_pair_helper E n s (some []) hcls hn hs]
  unfold generic_json_schema_builder
  cases h : E.clsDetail with
  | none => simp
  | some d => simp [pyTruthy]

/-- Witness for C9: the literal 777 flows through unchanged. -/
theorem status_propagated_witness :
    Option.map HTTPExceptionSchema.status_code
      (extract_json_schema
        ⟨some ⟨some [⟨some "status_code", .constant (.intv 777)⟩,
                     ⟨some "detail", .constant (.strv "boom")⟩], some []⟩⟩
        excHTTPLike) = some 777 :=
  status_propagated_amended excHTTPLike 777 "boom" (Or.inl rfl) (by decide) (by decide)

/-! ## Claim C1 -/

/-- A user module inside the scan scope. -/
def modApp : PyModule := ⟨"app.main", false⟩

/-- Two mutually recursive user functions: `f` (identity 0) calls `g`
(identity 1) and `g` calls `f`. -/
def cycleProg : Nat → FuncDef := fun n =>
  if n = 0 then ⟨modApp, [.callStmt 1]⟩
  else if n = 1 then ⟨modApp, [.callStmt 0]⟩
  else ⟨modApp, []⟩

/-- The default scope predicate for the scope `["app"]`. -/
def appPred : String → Bool := fun m => is_in_module m ["app"]

/-- C1 counterexample: analyzing the mutually recursive pair starting from
an empty visited table re-analyzes function 0's AST at least twice — the
source memoizes a function only AFTER its visit completes (compiler.py
line 205), so during a cycle every re-entry misses the table and re-visits
the AST; the recursion stops only because the interpreter's recursion
limit (the fuel) aborts the visit with a caught `RecursionError`. -/
theorem cycle_reanalysis_counterexample :
    2 ≤ ((findRec cycleProg appPred 4 ([] : VisitedTable) 0).2.2.count 0) := by
  decide

/-- C1 amended: the discovery terminates (the recursion depth is bounded by
the interpreter's recursion limit, whose overflow is caught), and once a
function's analysis has COMPLETED and been recorded in the visited table,
every later request for it is answered from the table without re-visiting
its AST (no analysis is logged and the table is unchanged); however, while
a mutually recursive function's first analysis is still in progress it is
not yet in the table and may be re-analyzed up to the recursion limit. -/
theorem visited_cache_amended (prog : Nat → FuncDef) (pred : String → Bool)
    (fuel : Nat) (table : VisitedTable) (f : Nat) (cached : List RaiseSite)
    (h : lookupT table f = some cached) :
    findRec prog pred fuel table f = (table, cached, []) := by
  cases fuel <;> simp [findRec, h]

/-- Witness for C1: a table already holding an entry for function 0 answers
from the cache. -/
theorem visited_cache_witness :
    findRec cycleProg appPred 3 [(0, [])] 0 = ([(0, [])], [], []) :=
  visited_cache_amended cycleProg appPred 3 [(0, [])] 0 [] rfl

/-! ## Claim C2 -/

/-- Every raise site in the list is owned by a function whose defining
module passes the scope check. -/
def siteOwnersInScope (prog : Nat → FuncDef) (pred : String → Bool)
    (l : List RaiseSite) : Prop :=
  ∀ s ∈ l, should_be_visited (prog s.owner).module pred = true

/-- Every memoized list in the visited table only holds in-scope-owned
raise sites. -/
def tableInScope (prog : Nat → FuncDef) (pred : String → Bool)
    (t : VisitedTable) : Prop :=
  ∀ p ∈ t, siteOwnersInScope prog pred p.2

theorem lookupT_mem {t : VisitedTable} {k : Nat} {v : List RaiseSite}
    (h : lookupT t k = some v) : (k, v) ∈ t := by
  induction t with
  | nil => simp [lookupT] at h
  | cons p rest ih =>
    rcases p with ⟨k0, v0⟩
    by_cases hk : k0 = k
    · subst hk
      simp [lookupT] at h
      subst h
      exact List.mem_cons_self _ _
    · simp [lookupT, hk] at h
      exact List.mem_cons_of_mem _ (ih h)

theorem tableInScope_insert {prog : Nat → FuncDef} {pred : String → Bool}
    {t : VisitedTable} {k : Nat} {v : List RaiseSite}
    (h1 : tableInScope prog pred t) (h2 : siteOwnersInScope prog pred v) :
    tableInScope prog pred (insertT t k v) := by
  intro p hp
  rcases List.mem_cons.mp hp with rfl | hp2
  · exact h2
  · exact h1 p hp2

/-- Scope containment for one body-visiting pass, parameterized by the
behaviour of the recursive call one fuel level down. -/
theorem visitBody_scope
    (findF : VisitedTable → Nat → VisitedTable × List RaiseSite × List Nat)
    (prog : Nat → FuncDef) (pred : String → Bool) (owner : Nat)
    (hF : ∀ (table : VisitedTable) (g : Nat), tableInScope prog pred table →
      tableInScope prog pred (findF table g).1
      ∧ siteOwnersInScope prog pred (findF table g).2.1
      ∧ ∀ x ∈ (findF table g).2.2, should_be_visited (prog x).module pred = true)
    (howner : should_be_visited (prog owner).module pred = true) :
    ∀ (stmts : List Stmt) (i : Nat) (table : VisitedTable),
      tableInScope prog pred table →
      tableInScope prog pred (visitBody findF prog pred owner table stmts i).1
      ∧ siteOwnersInScope prog pred (visitBody findF prog pred owner table stmts i).2.1
      ∧ ∀ x ∈ (visitBody findF prog pred owner table stmts i).2.2,
          should_be_visited (prog x).module pred = true := by
  intro stmts
  induction stmts with
  | nil =>
    intro i table ht
    exact ⟨ht, by intro s hs; simp [visitBody] at hs, by intro x hx; simp [visitBody] at hx⟩
  | cons st rest ih =>
    intro i table ht
    cases st with
    | raiseStmt e node =>
      have h := ih (i + 1) table ht
      simp only [visitBody]
      refine ⟨h.1, ?_, h.2.2⟩
      intro s hs
      rcases List.mem_cons.mp hs with rfl | hs2
      · exact howner
      · exact h.2.1 s hs2
    | callStmt g =>
      cases hg : should_be_visited (prog g).module pred with
      | true =>
        have hc := hF table g ht
        have hr := ih (i + 1) (findF table g).1 hc.1
        simp only [visitBody, hg, if_true]
        refine ⟨hr.1, ?_, ?_⟩
        · intro s hs
          rcases List.mem_append.mp hs with h1 | h2
          · exact hc.2.1 s h1
          · exact hr.2.1 s h2
        · intro x hx
          rcases List.mem_append.mp hx with h1 | h2
          · exact hc.2.2 x h1
          · exact hr.2.2 x h2
      | false =>
        simp only [visitBody, hg, Bool.false_eq_true, if_false]
        exact ih (i + 1) table ht

/-- Scope containment for the recursive finder: starting from a table whose
entries are all in-scope-owned, every raise site produced is owned by an
in-scope function and every function whose AST analysis is started is
in-scope. -/
theorem findRec_scope (prog : Nat → FuncDef) (pred : String → Bool) :
    ∀ (fuel : Nat) (table : VisitedTable) (f : Nat),
      tableInScope prog pred table →
      tableInScope prog pred (findRec prog pred fuel table f).1
      ∧ siteOwnersInScope prog pred (findRec prog pred fuel table f).2.1
      ∧ ∀ g ∈ (findRec prog pred fuel table f).2.2,
          should_be_visited (prog g).module pred = true := by
  intro fuel
  induction fuel with
  | zero =>
    intro table f ht
    cases hl : lookupT table f with
    | some cached =>
      simp only [findRec, hl]
      exact ⟨ht, ht _ (lookupT_mem hl), by intro x hx; simp at hx⟩
    | none =>
      cases hf : should_be_visited (prog f).module pred with
      | true =>
        simp only [findRec, hl, hf, if_true]
        refine ⟨tableInScope_insert ht ?_, ?_, ?_⟩
        · intro s hs; simp at hs
        · intro s hs; simp at hs
        · intro x hx
          rcases List.mem_singleton.mp hx with rfl
          exact hf
      | false =>
        simp only [findRec, hl, hf, Bool.false_eq_true, if_false]
        exact ⟨ht, by intro s hs; simp at hs, by intro x hx; simp at hx⟩
  | succ fuel ih =>
    intro table f ht
    cases hl : lookupT table f with
    | some cached =>
      simp only [findRec, hl]
      exact ⟨ht, ht _ (lookupT_mem hl), by intro x hx; simp at hx⟩
    | none =>
      cases hf : should_be_visited (prog f).module pred with
      | true =>
        have hv := visitBody_scope (findRec prog pred fuel) prog pred f
          (fun table g => ih table g) hf (prog f).body 0 table ht
        simp only [findRec, hl, hf, if_true]
        refine ⟨tableInScope_insert hv.1 hv.2.1, hv.2.1, ?_⟩
        intro x hx
        rcases List.mem_cons.mp hx with rfl | hx2
        · exact hf
        · exact hv.2.2 x hx2
      | false =>
        simp only [findRec, hl, hf, Bool.false_eq_true, if_false]
        exact ⟨ht, by intro s hs; simp at hs, by intro x hx; simp at hx⟩

/-- C2: a function whose defining module name is neither `"__main__"` nor a
prefix match of the configured scope (or whose source lies inside the
stdlib path) is analyzed to the empty raise-site list with the table
untouched; moreover every raise site ever produced is owned by an in-scope
function, and every function whose AST is analyzed is in-scope — so no
raise site inside an out-of-scope function, or reachable only through one,
contributes to the output. -/
theorem scope_containment (prog : Nat → FuncDef) (targets : List String)
    (fuel : Nat) (table : VisitedTable) (f : Nat)
    (htable : tableInScope prog (fun m => is_in_module m targets) table) :
    (((prog f).module.isStdlib = true ∨
      ((prog f).module.name ≠ "__main__" ∧
        ∀ t ∈ targets, pyStartsWith (pyAdjust (prog f).module.name) t = false)) →
      find_explicit_exceptions prog targets fuel table f = (table, [], []))
    ∧ siteOwnersInScope prog (fun m => is_in_module m targets)
        (find_explicit_exceptions prog targets fuel table f).2.1
    ∧ ∀ g ∈ (find_explicit_exceptions prog targets fuel table f).2.2,
        should_be_visited (prog g).module (fun m => is_in_module m targets) = true := by
  refine ⟨?_, ?_⟩
  · intro hout
    have hsv : should_be_visited (prog f).module (fun m => is_in_module m targets) = false := by
      rcases hout with h | ⟨h1, h2⟩
      · simp [should_be_visited, h]
      · have him : is_in_module (prog f).module.name targets = false := by
          simp only [is_in_module, h1, if_false]
          rw [List.any_eq_false]
          intro t ht
          simp [h2 t ht]
        simp [should_be_visited, him]
    simp [find_explicit_exceptions, findExplicitWithPred, hsv]
  · cases hsv : should_be_visited (prog f).module (fun m => is_in_module m targets) with
    | true =>
      have h := findRec_scope prog (fun m => is_in_module m targets) fuel table f htable
      constructor
      · simpa [find_explicit_exceptions, findExplicitWithPred, hsv] using h.2.1
      · simpa [find_explicit_exceptions, findExplicitWithPred, hsv] using h.2.2
    | false =>
      constructor
      · intro s hs
        simp [find_explicit_exceptions, findExplicitWithPred, hsv] at hs
      · intro g hg
        simp [find_explicit_exceptions, findExplicitWithPred, hsv] at hg

/-- A third-party function outside the `["app"]` scope, containing a raise
site. -/
def outProg : Nat → FuncDef := fun _ =>
  ⟨⟨"thirdparty.lib", false⟩, [.raiseStmt none ⟨none⟩]⟩

/-- Witness for C2: the out-of-scope function's analysis yields the empty
list and leaves the table untouched. -/
theorem scope_containment_witness :
    find_explicit_exceptions outProg ["app"] 3 [] 5 = ([], [], []) :=
  (scope_containment outProg ["app"] 3 [] 5
      (by intro p hp; exact absurd hp (List.not_mem_nil p))).1
    (Or.inr ⟨by decide, by decide⟩)

/-! ## Claim C10 -/

theorem isPrefixOf_append_right (p : List Char) :
    ∀ l l2 : List Char, p.isPrefixOf l = true → p.isPrefixOf (l ++ l2) = true := by
  induction p with
  | nil => intro l l2 _; simp [List.isPrefixOf]
  | cons c cs ih =>
    intro l l2 h
    cases l with
    | nil => simp [List.isPrefixOf] at h
    | cons d ds =>
      simp only [List.isPrefixOf, List.cons_append, Bool.and_eq_true] at h ⊢
      exact ⟨h.1, ih ds l2 h.2⟩

theorem pyStartsWith_append_dot (m p : String) (h : pyStartsWith m p = true) :
    pyStartsWith (m ++ ".") p = true := by
  unfold pyStartsWith at h ⊢
  rw [String.data_append]
  exact isPrefixOf_append_right p.data m.data _ h

/-- C10: `compile_openapi_from_fastapi` appends `"fastapi"` to the scan
scope before analysis, so every module whose name starts with `"fastapi"`
is in scope regardless of the caller-supplied scope; the scope list
actually used is always the caller's list (or the singleton of the
caller's string) extended with `"fastapi"`; and after the call a
caller-owned list argument has been mutated in place by the append, while
a string argument is untouched. -/
theorem fastapi_scope_injection :
    (∀ (arg : ScopeArg) (m : String), pyStartsWith m "fastapi" = true →
      is_in_module m (scopeList arg ++ ["fastapi"]) = true)
    ∧ (∀ l : List String, afterCall (.listArg l) = .listArg (l ++ ["fastapi"]))
    ∧ (∀ s : String, afterCall (.strArg s) = .strArg s)
    ∧ ∀ (prog : Nat → FuncDef) (fuel : Nat) (app : App) (arg : ScopeArg)
        (table : VisitedTable),
        (compile_openapi_from_fastapi prog fuel app arg table).2.2
          = scopeList arg ++ ["fastapi"] := by
  refine ⟨?_, fun l => rfl, fun s => rfl, ?_⟩
  · intro arg m hm
    unfold is_in_module
    by_cases hmain : m = "__main__"
    · simp [hmain]
    · have hsw : pyStartsWith (pyAdjust m) "fastapi" = true := by
        unfold pyAdjust
        by_cases hc : pyContains m '.' = true
        · simpa [hc] using hm
        · simp only [hc, if_false]
          exact pyStartsWith_append_dot m "fastapi" hm
      simp [hmain, List.any_append, hsw]
  · intro prog fuel app arg table
    unfold compile_openapi_from_fastapi
    cases h : (app.routes.foldl (compileStep prog (scopeList arg ++ ["fastapi"]) fuel)
        (some app.baseDoc, table)).1 <;> simp [h]

/-- Witness for C10: with caller scope `["src"]`, the module
`"fastapi.routing"` is in scope. -/
theorem fastapi_scope_injection_witness :
    is_in_module "fastapi.routing" (scopeList (.listArg ["src"]) ++ ["fastapi"]) = true :=
  fastapi_scope_injection.1 (.listArg ["src"]) "fastapi.routing" (by decide)

/-! ## Claim C7 -/

theorem lookupA_updateA_self {V : Type} (l : List (String × V)) (k : String) (v : V) :
    lookupA (updateA l k v) k = some v := by
  induction l with
  | nil => simp [updateA, lookupA]
  | cons p rest ih =>
    rcases p with ⟨k0, v0⟩
    by_cases h : k0 = k
    · simp [updateA, h, lookupA]
    · simp [updateA, h, lookupA, ih]

theorem registerComponent_paths (doc : Doc) (s : HTTPExceptionSchema) :
    (registerComponent doc s).paths = doc.paths := by
  unfold registerComponent
  cases lookupA doc.components s.schema_name <;> rfl

theorem fillMethod_eq (doc : Doc) (P m : String) (s : HTTPExceptionSchema)
    (mm : MethodMap) (resps : Responses)
    (hpath : lookupA doc.paths P = some mm) (hm : lookupA mm m = some resps) :
    fillMethod doc P m s
      = some { doc with
               paths := updateA doc.paths P (updateA mm m (updMethodResponses s resps)) } := by
  simp [fillMethod, hpath, hm]

theorem updMethodResponses_new (s : HTTPExceptionSchema) (resps : Responses)
    (hnone : lookupA resps (toString s.status_code) = none) :
    updMethodResponses s resps
      = updateA resps (toString s.status_code) ⟨s.schema_desc, .ref s.schema_name⟩ := by
  simp [updMethodResponses, hnone]

theorem updMethodResponses_single (s : HTTPExceptionSchema) (resps : Responses)
    (entry : RespEntry) (r : String)
    (hsome : lookupA resps (toString s.status_code) = some entry)
    (hentry : entry.schema = .ref r) :
    updMethodResponses s resps
      = updateA resps (toString s.status_code)
          { entry with schema := .anyOfS [.ref r, .ref s.schema_name] } := by
  simp [updMethodResponses, hsome, hentry]

theorem fillExcs_cons_eq (route : Route) (doc : Doc) (added : List String)
    (E : ExcType) (node : RaiseNode) (rest : List (ExcType × RaiseNode))
    (s : HTTPExceptionSchema)
    (hschema : schemaOf E node = some s) (hnot : s.schema_name ∉ added) :
    fillExcs route doc added ((E, node) :: rest)
      = match fillMethods (registerComponent doc s) route.path s
          (route.methods.map pyLower) with
        | none => none
        | some doc2 => fillExcs route doc2 (s.schema_name :: added) rest := by
  simp only [fillExcs, hschema]
  rw [if_neg hnot]

theorem fillExcs_cons_skip (route : Route) (doc : Doc) (added : List String)
    (E : ExcType) (node : RaiseNode) (rest : List (ExcType × RaiseNode))
    (s : HTTPExceptionSchema)
    (hschema : schemaOf E node = some s) (hin : s.schema_name ∈ added) :
    fillExcs route doc added ((E, node) :: rest) = fillExcs route doc added rest := by
  simp only [fillExcs, hschema]
  rw [if_pos hin]

/-- The read path `paths[path][method].responses[status]`'s schema, as a
document observation. -/
def getResponse (doc : Doc) (path m status : String) : Option SchemaJ :=
  match lookupA doc.paths path with
  | none => none
  | some mm =>
    match lookupA mm m with
    | none => none
    | some resps =>
      match lookupA resps status with
      | none => none
      | some entry => some entry.schema

/-- C7: two distinct exceptions with the same status code and distinct
schema names reachable from the same route/method merge into an `anyOf`
union holding both schema references in discovery order; and when the
second schema name equals the first, it is skipped, leaving the single
reference — a schema name already present under the status is never added
twice. -/
theorem union_composition (E1 E2 : ExcType) (n1 n2 : RaiseNode)
    (s1 s2 : HTTPExceptionSchema) (doc : Doc) (P M : String)
    (mm : MethodMap) (resps : Responses) (deps : List Nat)
    (h1 : schemaOf E1 n1 = some s1) (h2 : schemaOf E2 n2 = some s2)
    (hs : s2.status_code = s1.status_code)
    (hpath : lookupA doc.paths P = some mm)
    (hm : lookupA mm (pyLower M) = some resps)
    (hnone : lookupA resps (toString s1.status_code) = none) :
    (s1.schema_name ≠ s2.schema_name →
      ∃ doc2,
        fill_openapi_with_excpetions doc ⟨true, true, P, [M], deps⟩ [(E1, n1), (E2, n2)]
          = some doc2
        ∧ getResponse doc2 P (pyLower M) (toString s1.status_code)
            = some (.anyOfS [.ref s1.schema_name, .ref s2.schema_name]))
    ∧ (s1.schema_name = s2.schema_name →
      ∃ doc2,
        fill_openapi_with_excpetions doc ⟨true, true, P, [M], deps⟩ [(E1, n1), (E2, n2)]
          = some doc2
        ∧ getResponse doc2 P (pyLower M) (toString s1.status_code)
            = some (.ref s1.schema_name)) := by
  have hkey : toString s2.status_code = toString s1.status_code := by rw [hs]
  have hpath1 : lookupA (registerComponent doc s1).paths P = some mm := by
    rw [registerComponent_paths]; exact hpath
  have hfm1 := fillMethod_eq (registerComponent doc s1) P (pyLower M) s1 mm resps hpath1 hm
  rw [updMethodResponses_new s1 resps hnone, registerComponent_paths doc s1] at hfm1
  constructor
  · intro hne
    have hnotin2 : s2.schema_name ∉ [s1.schema_name] := by
      simp only [List.mem_singleton]
      intro h
      exact hne (h ▸ rfl)
    unfold fill_openapi_with_excpetions
    rw [fillExcs_cons_eq _ doc [] E1 n1 _ s1 h1 (List.not_mem_nil _)]
    dsimp only [List.map_cons, List.map_nil]
    simp only [fillMethods, hfm1]
    rw [fillExcs_cons_eq _ _ [s1.schema_name] E2 n2 [] s2 h2 hnotin2]
    dsimp only [List.map_cons, List.map_nil]
    have hpath2 : lookupA (registerComponent
        { registerComponent doc s1 with
          paths := updateA doc.paths P (updateA mm (pyLower M)
            (updateA resps (toString s1.status_code)
              ⟨s1.schema_desc, .ref s1.schema_name⟩)) } s2).paths P
        = some (updateA mm (pyLower M)
            (updateA resps (toString s1.status_code)
              ⟨s1.schema_desc, .ref s1.schema_name⟩)) := by
      rw [registerComponent_paths]
      exact lookupA_updateA_self _ _ _
    have hm2 : lookupA (updateA mm (pyLower M)
        (updateA resps (toString s1.status_code)
          ⟨s1.schema_desc, .ref s1.schema_name⟩)) (pyLower M)
        = some (updateA resps (toString s1.status_code)
            ⟨s1.schema_desc, .ref s1.schema_name⟩) :=
      lookupA_updateA_self _ _ _
    have hfm2 := fillMethod_eq _ P (pyLower M) s2 _ _ hpath2 hm2
    rw [updMethodResponses_single s2 _
          ⟨s1.schema_desc, .ref s1.schema_name⟩ s1.schema_name
          (by rw [hkey]; exact lookupA_updateA_self _ _ _) rfl] at hfm2
    simp only [fillMethods, hfm2]
    simp only [fillExcs]
    rw [hkey]
    refine ⟨_, rfl, ?_⟩
    simp only [getResponse, lookupA_updateA_self]
  · intro heq
    have hin2 : s2.schema_name ∈ [s1.schema_name] := by
      simp [heq]
    unfold fill_openapi_with_excpetions
    rw [fillExcs_cons_eq _ doc [] E1 n1 _ s1 h1 (List.not_mem_nil _)]
    dsimp only [List.map_cons, List.map_nil]
    simp only [fillMethods, hfm1]
    rw [fillExcs_cons_skip _ _ [s1.schema_name] E2 n2 [] s2 h2 hin2]
    simp only [fillExcs]
    refine ⟨_, rfl, ?_⟩
    simp only [getResponse, lookupA_updateA_self]

/-- Concrete exception classes for the C7 witness. -/
def excA : ExcType :=
  ⟨"AError", some 500, some (.strv "a err"), fun _ _ => none, none, true⟩

/-- Second concrete exception class, same status, distinct detail. -/
def excB : ExcType :=
  ⟨"BError", some 500, some (.strv "b err"), fun _ _ => none, none, true⟩

/-- The schema `excA` produces. -/
def schemaA : HTTPExceptionSchema :=
  ⟨.modelSchema "aErrSchema" (some (.strv "a err")), "aErrSchema", "a err", 500⟩

/-- The schema `excB` produces. -/
def schemaB : HTTPExceptionSchema :=
  ⟨.modelSchema "bErrSchema" (some (.strv "b err")), "bErrSchema", "b err", 500⟩

/-- A base document holding the route `/items` with method `get` and no
responses yet. -/
def docW : Doc := ⟨[], [("/items", [("get", [])])]⟩

/-- Witness for C7: both 500-exceptions merge into an `anyOf` union with
the two schema references in discovery order. -/
theorem union_composition_witness :
    ∃ doc2,
      fill_openapi_with_excpetions docW ⟨true, true, "/items", ["GET"], []⟩
        [(excA, ⟨none⟩), (excB, ⟨none⟩)] = some doc2
      ∧ getResponse doc2 "/items" (pyLower "GET") (toString (500 : Int))
          = some (.anyOfS [.ref "aErrSchema", .ref "bErrSchema"]) :=
  (union_composition excA excB ⟨none⟩ ⟨none⟩ schemaA schemaB docW "/items" "GET"
      [("get", [])] [] [] (by decide) (by decide) rfl rfl rfl rfl).1 (by decide)

/-! ## Claim C8 -/

theorem find_explicit_exceptions_congr (prog : Nat → FuncDef)
    (t1 t2 : List String) (h : ∀ m, is_in_module m t1 = is_in_module m t2) :
    find_explicit_exceptions prog t1 = find_explicit_exceptions prog t2 := by
  funext fuel table f
  unfold find_explicit_exceptions
  rw [funext h]

theorem compileStep_congr (prog : Nat → FuncDef) (fuel : Nat)
    (t1 t2 : List String)
    (h : find_explicit_exceptions prog t1 = find_explicit_exceptions prog t2) :
    compileStep prog t1 fuel = compileStep prog t2 fuel := by
  funext st route
  unfold compileStep extract_starlette_exceptions
  rw [h]

/-- C8: a successful pass clears the visited table
(`ExceptionFinder.clear_cache()`), so running the compiler twice on the
same application — the second time with the caller's argument as the first
call left it (a list argument has been mutated by the `"fastapi"` append)
— produces the identical document: the duplicated `"fastapi"` entry does
not change the scope predicate, and the second pass starts from the same
empty table. -/
theorem compile_idempotent (prog : Nat → FuncDef) (fuel : Nat) (app : App)
    (arg : ScopeArg) (d : Doc)
    (h : (compile_openapi_from_fastapi prog fuel app arg []).1 = some d) :
    (compile_openapi_from_fastapi prog fuel app (afterCall arg)
        (compile_openapi_from_fastapi prog fuel app arg []).2.1).1 = some d := by
  have htable : (compile_openapi_from_fastapi prog fuel app arg []).2.1 = [] := by
    unfold compile_openapi_from_fastapi at h ⊢
    dsimp only at h ⊢
    cases hf : (app.routes.foldl
        (compileStep prog (scopeList arg ++ ["fastapi"]) fuel)
        (some app.baseDoc, ([] : VisitedTable))).1 with
    | none => rw [hf] at h; simp at h
    | some doc => rfl
  rw [htable]
  cases arg with
  | strArg s => exact h
  | listArg l =>
    have hb : ∀ m, is_in_module m (scopeList (ScopeArg.listArg l) ++ ["fastapi"])
        = is_in_module m (scopeList (afterCall (ScopeArg.listArg l)) ++ ["fastapi"]) := by
      intro m
      show is_in_module m (l ++ ["fastapi"])
        = is_in_module m ((l ++ ["fastapi"]) ++ ["fastapi"])
      unfold is_in_module
      by_cases hm : m = "__main__"
      · simp [hm]
      · simp [hm, List.any_append, Bool.or_assoc]
    have hstep := compileStep_congr prog fuel _ _
      (find_explicit_exceptions_congr prog _ _ hb)
    unfold compile_openapi_from_fastapi at h ⊢
    dsimp only at h ⊢
    rw [← hstep]
    cases hf2 : (app.routes.foldl
        (compileStep prog (scopeList (ScopeArg.listArg l) ++ ["fastapi"]) fuel)
        (some app.baseDoc, ([] : VisitedTable))).1 with
    | none => rw [hf2] at h; simp at h
    | some doc =>
      rw [hf2] at h
      simp at h
      simp [h]

/-- A one-route application whose handler raises nothing. -/
def appW : App :=
  ⟨[⟨true, true, "/x", ["GET"], [0]⟩], ⟨[], [("/x", [("get", [])])]⟩⟩

/-- The one-function program behind `appW`. -/
def progW : Nat → FuncDef := fun _ => ⟨⟨"app.main", false⟩, []⟩

/-- Witness for C8: compiling `appW` twice — the second time with the
mutated caller list and the table left by the first pass — yields the same
document. -/
theorem compile_idempotent_witness :
    (compile_openapi_from_fastapi progW 2 appW (afterCall (.listArg ["app"]))
        (compile_openapi_from_fastapi progW 2 appW (.listArg ["app"]) []).2.1).1
      = some ⟨[], [("/x", [("get", [])])]⟩ :=
  compile_idempotent progW 2 appW (.listArg ["app"]) ⟨[], [("/x", [("get", [])])]⟩ (by rfl)
